import Mathlib

/-!
Verification of the SASAA survey-reward/withdrawal transaction engine.

The definitions below are a shallow embedding of the repository's
transaction-handling routes and SQL functions:

* `src/server.js`
  - `POST /api/surveys/:id/submit`  (survey submission, reward credit)
  - `POST /api/withdrawals`         (withdrawal request)
* `src/schema.sql`
  - table shapes, uniqueness constraints, `get_user_balance`
* `src/unnamed/part_001`
  - `get_user_balance` (second variant), `check_referral_bonus`

Monetary amounts (SQL `DECIMAL(10,2)`, JS numbers) are modelled as `Int`;
every comparison made by the code is an order/equality comparison that is
preserved by this choice.  UUIDs are modelled as `Nat` row identifiers
allocated by a `nextUserId` counter.  Database transactions are modelled
with rollback semantics: an operation that raises an error returns the
state it started from.
-/

namespace SASAA

/-- Transaction kinds, from the CHECK constraint on `transactions.transaction_type`
in `src/schema.sql`. -/
inductive TransactionType
  | survey_reward
  | referral_bonus
  | withdrawal_request
  | withdrawal_completed
deriving DecidableEq

/-- Transaction statuses, from the CHECK constraint on `transactions.status`
in `src/schema.sql`. -/
inductive TxStatus
  | pending
  | completed
  | failed
  | cancelled
deriving DecidableEq

/-- A row of the `transactions` table (ledger entry).  Columns that no code
path reads or branches on (`paypal_transaction_id`, timestamps) are omitted. -/
structure Transaction where
  user_id : Nat
  transaction_type : TransactionType
  amount : Int
  description : String
  reference_id : Option String
  paypal_email : Option String
  status : TxStatus
deriving DecidableEq

/-- A row of the `users` table.  `email` and `referral_code` carry UNIQUE
constraints in `src/schema.sql`.  `updated_at` models the row timestamp the
upsert refreshes; columns never read or written by the embedded routes
(`password_hash`, `email_verified`, ...) are omitted. -/
structure User where
  id : Nat
  email : String
  balance : Int
  referral_code : String
  referred_by : Option String
  total_referrals : Nat
  ip_address : String
  user_agent : String
  updated_at : Nat
deriving DecidableEq

/-- A row of the `surveys` table. -/
structure Survey where
  id : Nat
  survey_key : String
  reward_amount : Int
  is_active : Bool
deriving DecidableEq

/-- A row of the `survey_questions` table. -/
structure SurveyQuestion where
  id : Nat
  survey_id : Nat
  question_key : String
deriving DecidableEq

/-- A submitted answer value: the route distinguishes arrays
(`Array.isArray(answer)`) from scalar values. -/
inductive AnswerVal
  | scalar (v : String)
  | options (l : List String)
deriving DecidableEq

/-- A row of the `user_survey_responses` table. -/
structure SurveyResponse where
  user_id : Nat
  survey_id : Nat
  question_id : Nat
  answer_text : Option String
  answer_options : Option (List String)
deriving DecidableEq

/-- A row of the `user_completed_surveys` table; `UNIQUE(user_id, survey_id)`
in `src/schema.sql`. -/
structure CompletedSurvey where
  user_id : Nat
  survey_id : Nat
  reward_paid : Bool
deriving DecidableEq

/-- A row of the `withdrawal_requests` table. -/
structure WithdrawalRow where
  user_id : Nat
  amount : Int
  paypal_email : String
  status : String
deriving DecidableEq

/-- A row of the `activity_logs` table.  The `metadata` JSON blob is omitted:
no code path reads it back and no control flow depends on it. -/
structure ActivityLog where
  user_id : Nat
  activity_type : String
  description : String
  ip_address : String
  user_agent : Option String
deriving DecidableEq

/-- The `system_config` rows read by `check_referral_bonus` in
`src/unnamed/part_001`. -/
structure SystemConfig where
  referral_bonus_threshold : Int
  referral_bonus_amount : Int
deriving DecidableEq

/-- The database state: one list per table touched by the embedded routes.
`referrals` rows are (referrer_id, referred_user_id) pairs.  `nextUserId`
models UUID allocation for new `users` rows. -/
structure DBState where
  users : List User
  surveys : List Survey
  survey_questions : List SurveyQuestion
  user_survey_responses : List SurveyResponse
  user_completed_surveys : List CompletedSurvey
  transactions : List Transaction
  withdrawal_requests : List WithdrawalRow
  activity_logs : List ActivityLog
  referrals : List (Nat × Nat)
  config : SystemConfig
  nextUserId : Nat
deriving DecidableEq

/-- The CASE sign rule shared by the balance computations: credit kinds count
positively, withdrawal kinds negatively.  (The SQL `ELSE 0` arm is
unreachable: the CHECK constraint closes the kind set.) -/
def txSigned (t : Transaction) : Int :=
  match t.transaction_type with
  | .survey_reward => t.amount
  | .referral_bonus => t.amount
  | .withdrawal_request => -t.amount
  | .withdrawal_completed => -t.amount

/-- The balance recomputation inlined in the submit route
(`UPDATE users SET balance = (SELECT COALESCE(SUM(CASE ...)) FROM transactions
WHERE user_id = $1 AND status = 'completed')`, `src/server.js` lines 255-265):
it sums only rows with status `completed`. -/
def balanceUpdateSum (txs : List Transaction) (uid : Nat) : Int :=
  ((txs.filter fun t =>
      decide (t.user_id = uid ∧ t.status = TxStatus.completed)).map txSigned).sum

/-- The `get_user_balance` function of `src/schema.sql` (lines 139-158): the
same CASE sign rule summed over ALL rows of the user, with no status filter. -/
def get_user_balance (txs : List Transaction) (uid : Nat) : Int :=
  ((txs.filter fun t => decide (t.user_id = uid)).map txSigned).sum

/-- The `get_user_balance` variant of `src/unnamed/part_001`: completed credits
minus completed debits.  SQL `SUM` over an empty set is NULL, and
`COALESCE((credits) - (debits), 0)` collapses the whole difference to 0 when
either operand is NULL, which this definition reproduces. -/
def get_user_balance_v2 (txs : List Transaction) (uid : Nat) : Int :=
  let credits := ((txs.filter fun t =>
      decide (t.user_id = uid ∧
        (t.transaction_type = TransactionType.survey_reward ∨
         t.transaction_type = TransactionType.referral_bonus) ∧
        t.status = TxStatus.completed)).map Transaction.amount)
  let debits := ((txs.filter fun t =>
      decide (t.user_id = uid ∧
        (t.transaction_type = TransactionType.withdrawal_request ∨
         t.transaction_type = TransactionType.withdrawal_completed) ∧
        t.status = TxStatus.completed)).map Transaction.amount)
  if credits.isEmpty ∨ debits.isEmpty then 0 else credits.sum - debits.sum

/-- Modelled from the spec: the claimed counting rule of spec section 4.2 —
credit-like entries plus withdrawal debits, with pending withdrawal debits
counted as already deducted and failed/cancelled entries excluded.  This
definition follows the spec's words and exists only to be compared with the
balance computations taken from the source. -/
def spec_counted_balance (txs : List Transaction) (uid : Nat) : Int :=
  ((txs.filter fun t =>
      decide (t.user_id = uid ∧
        t.status ≠ TxStatus.failed ∧ t.status ≠ TxStatus.cancelled)).map txSigned).sum

/-- The JS expression `userIp.replace(/\./g, '')`. -/
def stripDots (s : String) : String :=
  String.mk (s.data.filter fun c => decide (c ≠ '.'))

/-- The synthesized contact key for submissions without an email
(`src/server.js` line 180):
`temp_` + `Date.now()` + `_` + dot-stripped ip + `@temp.com`.
The JS template literal renders the timestamp in decimal, which is exactly
`Nat.repr`. -/
def tempEmail (now : Nat) (ip : String) : String :=
  "temp_" ++ Nat.repr now ++ "_" ++ stripDots ip ++ "@temp.com"

/-- The generated referral code (`src/server.js` line 181):
`REF` + `Date.now().toString().slice(-6)`.  JS `slice(-6)` keeps the last
six characters (the whole string when it is shorter). -/
def referralCode (now : Nat) : String :=
  let ds := (Nat.repr now).data
  "REF" ++ String.mk (ds.drop (ds.length - 6))

/-- The `ON CONFLICT (email) DO UPDATE` arm of the users upsert: refresh
`ip_address`, `user_agent` and `updated_at` of the (unique) row whose email
conflicts.  Uniqueness of emails is rendered by updating the first match. -/
def refreshUser (e ip ua : String) (now : Nat) : List User → List User
  | [] => []
  | u :: rest =>
    if u.email = e then
      { u with ip_address := ip, user_agent := ua, updated_at := now } :: rest
    else
      u :: refreshUser e ip ua now rest

/-- The users upsert of the submit route (`src/server.js` lines 183-193):
`INSERT INTO users (email, ip_address, user_agent, referral_code) ...
ON CONFLICT (email) DO UPDATE ... RETURNING id`.  When no email conflict
occurs the plain insert runs, and a conflicting `referral_code` then violates
the UNIQUE constraint of `src/schema.sql` line 11, aborting the transaction. -/
def upsertUser (s : DBState) (e ip ua rc : String) (now : Nat) :
    Except String (Nat × DBState) :=
  match s.users.find? (fun u => decide (u.email = e)) with
  | some u => .ok (u.id, { s with users := refreshUser e ip ua now s.users })
  | none =>
    if s.users.any (fun u => decide (u.referral_code = rc)) then
      .error "duplicate key value violates unique constraint users_referral_code_key"
    else
      .ok (s.nextUserId,
        { s with
          users := s.users ++
            [{ id := s.nextUserId, email := e, balance := 0, referral_code := rc,
               referred_by := none, total_referrals := 0,
               ip_address := ip, user_agent := ua, updated_at := now }],
          nextUserId := s.nextUserId + 1 })

/-- The answer-saving loop of the submit route (`src/server.js` lines 206-227):
for each (questionKey, answer) pair, look the question up by key and insert a
response row; unknown keys are silently skipped.  The input list comes from
`Object.entries` of a JS object, so its keys are pairwise distinct and the
`UNIQUE(user_id, survey_id, question_id)` constraint cannot fire here. -/
def saveResponses (uid sid : Nat) (qs : List SurveyQuestion) :
    List (String × AnswerVal) → List SurveyResponse
  | [] => []
  | (k, a) :: rest =>
    match qs.find? (fun q => decide (q.survey_id = sid ∧ q.question_key = k)) with
    | some q =>
      { user_id := uid, survey_id := sid, question_id := q.id,
        answer_text := match a with | .scalar v => some v | .options _ => none,
        answer_options := match a with | .scalar _ => none | .options l => some l }
        :: saveResponses uid sid qs rest
    | none => saveResponses uid sid qs rest

/-- Outcome of the submit route: the JSON success payload carries the resolved
user id and the count of saved responses; errors surface `error.message`. -/
inductive SubmitResult
  | success (userId : Nat) (responsesCount : Nat)
  | error (msg : String)
deriving DecidableEq

/-- The survey submission route `POST /api/surveys/:id/submit`
(`src/server.js` lines 163-298), as one atomic unit: any raised error rolls
the whole transaction back, so the error cases return the initial state.
Steps, in source order: resolve the user by upsert on the (possibly
synthesized) email; reject if a `user_completed_surveys` row for
(user, survey) exists; save the answers; look the survey row up by id (with
no `is_active` filter); if the row exists, insert the completion record, the
reward transaction, the recomputed cached balance and the activity log; if it
does not exist, skip that whole block and commit anyway. -/
def submitSurvey (s : DBState) (sid : Nat) (responses : List (String × AnswerVal))
    (userEmail : Option String) (ip ua : String) (now : Nat) :
    SubmitResult × DBState :=
  let e := userEmail.getD (tempEmail now ip)
  match upsertUser s e ip ua (referralCode now) now with
  | .error m => (.error m, s)
  | .ok (uid, s1) =>
    if s1.user_completed_surveys.any
        (fun c => decide (c.user_id = uid ∧ c.survey_id = sid)) then
      (.error "Ya has completado esta encuesta", s)
    else
      let newResps := saveResponses uid sid s1.survey_questions responses
      let s2 := { s1 with
        user_survey_responses := s1.user_survey_responses ++ newResps }
      match s2.surveys.find? (fun sv => decide (sv.id = sid)) with
      | none => (.success uid newResps.length, s2)
      | some sv =>
        let s3 := { s2 with user_completed_surveys :=
          s2.user_completed_surveys ++
            [({ user_id := uid, survey_id := sid, reward_paid := true } :
              CompletedSurvey)] }
        let tx : Transaction :=
          { user_id := uid, transaction_type := .survey_reward,
            amount := sv.reward_amount,
            description := "Recompensa por completar encuesta: " ++ sv.survey_key,
            reference_id := some sv.survey_key, paypal_email := none,
            status := .completed }
        let s4 := { s3 with transactions := s3.transactions ++ [tx] }
        let s5 := { s4 with users := s4.users.map fun u : User =>
          if u.id = uid then
            { u with balance := balanceUpdateSum s4.transactions uid }
          else u }
        let log : ActivityLog :=
          { user_id := uid, activity_type := "survey_completed",
            description := "Completó encuesta: " ++ sv.survey_key,
            ip_address := ip, user_agent := some ua }
        (.success uid newResps.length,
          { s5 with activity_logs := s5.activity_logs ++ [log] })

/-- Outcome of the withdrawal route. -/
inductive WithdrawResult
  | success
  | error (msg : String)
deriving DecidableEq

/-- The withdrawal route `POST /api/withdrawals` (`src/server.js` lines
301-367), as one atomic unit with rollback on error.  Checks, in source
order: the user row exists (`SELECT balance FROM users WHERE id = $1`); the
CACHED `users.balance` column is at least the amount; the amount is at least
5.  On success it inserts a pending `withdrawal_requests` row, a pending
`withdrawal_request` transaction and an activity log — and touches no column
of `users`. -/
def requestWithdrawal (s : DBState) (uid : Nat) (amount : Int)
    (paypalEmail ip : String) : WithdrawResult × DBState :=
  match s.users.find? (fun u => decide (u.id = uid)) with
  | none => (.error "Usuario no encontrado", s)
  | some u =>
    if u.balance < amount then
      (.error "Saldo insuficiente", s)
    else if amount < 5 then
      (.error "El monto mínimo de retiro es 5 EUR", s)
    else
      (.success,
        { s with
          withdrawal_requests := s.withdrawal_requests ++
            [{ user_id := uid, amount := amount, paypal_email := paypalEmail,
               status := "pending" }],
          transactions := s.transactions ++
            [{ user_id := uid, transaction_type := .withdrawal_request,
               amount := amount,
               description := "Solicitud de retiro vía PayPal",
               reference_id := none, paypal_email := some paypalEmail,
               status := .pending }],
          activity_logs := s.activity_logs ++
            [{ user_id := uid, activity_type := "withdrawal_requested",
               description := "Solicitó retiro de " ++ toString amount ++ " EUR",
               ip_address := ip, user_agent := none }] })

/-- Number of `referrals` rows whose referrer is the given user
(`SELECT COUNT(*) FROM referrals WHERE referrer_id = user_uuid`). -/
def referralCountOf (s : DBState) (uid : Nat) : Nat :=
  (s.referrals.filter fun r => decide (r.1 = uid)).length

/-- The prior-bonus existence check of `check_referral_bonus`: a completed
`referral_bonus` transaction for the user exists. -/
def hasReferralBonus (s : DBState) (uid : Nat) : Bool :=
  s.transactions.any fun t =>
    decide (t.user_id = uid ∧
      t.transaction_type = TransactionType.referral_bonus ∧
      t.status = TxStatus.completed)

/-- The `check_referral_bonus` SQL function of `src/unnamed/part_001` (lines
329-367): read threshold and amount from `system_config`, count referrals,
check for a prior completed bonus; when the threshold is reached and no prior
bonus exists, insert one completed `referral_bonus` transaction, refresh the
cached balance (via the part_001 `get_user_balance`) and return true;
otherwise return false. -/
def check_referral_bonus (s : DBState) (uid : Nat) : Bool × DBState :=
  let bonus_threshold := s.config.referral_bonus_threshold
  let bonus_amount := s.config.referral_bonus_amount
  let referral_count : Int := referralCountOf s uid
  let already_received := hasReferralBonus s uid
  if bonus_threshold ≤ referral_count ∧ already_received = false then
    let tx : Transaction :=
      { user_id := uid, transaction_type := .referral_bonus,
        amount := bonus_amount,
        description := "Bonus por alcanzar " ++ toString bonus_threshold
          ++ " referidos",
        reference_id := some ("referral_bonus_" ++ toString bonus_threshold),
        paypal_email := none, status := .completed }
    let s1 := { s with transactions := s.transactions ++ [tx] }
    let s2 := { s1 with users := s1.users.map fun u =>
      if u.id = uid then
        { u with balance := get_user_balance_v2 s1.transactions uid }
      else u }
    (true, s2)
  else (false, s)

/-- Number of completion records for a (user, survey) pair. -/
def countCompleted (s : DBState) (uid sid : Nat) : Nat :=
  (s.user_completed_surveys.filter fun c =>
    decide (c.user_id = uid ∧ c.survey_id = sid)).length

/-- Number of reward-credit ledger entries for a user referencing a survey key. -/
def rewardTxCount (s : DBState) (uid : Nat) (key : String) : Nat :=
  (s.transactions.filter fun t =>
    decide (t.user_id = uid ∧
      t.transaction_type = TransactionType.survey_reward ∧
      t.reference_id = some key)).length

/-- Number of referral-bonus ledger entries (of any status) for a user. -/
def bonusTxCount (s : DBState) (uid : Nat) : Nat :=
  (s.transactions.filter fun t =>
    decide (t.user_id = uid ∧
      t.transaction_type = TransactionType.referral_bonus)).length

/-- Iterated invocation of the referral bonus trigger, to express claims about
repeated invocations. -/
def iterateBonus (n : Nat) (s : DBState) (uid : Nat) : DBState :=
  match n with
  | 0 => s
  | m + 1 => iterateBonus m (check_referral_bonus s uid).2 uid

/-- Decimal digit list of a natural number, most significant digit first: the
reference shape of `Nat.toDigits 10` used to reason about the synthesized
contact keys. -/
def decDigits (n : Nat) : List Char :=
  if h : n < 10 then [Nat.digitChar n]
  else
    have : n / 10 < n := Nat.div_lt_self (by omega) (by omega)
    decDigits (n / 10) ++ [Nat.digitChar (n % 10)]
termination_by n

/-- The state produced by a successful anonymous submission whose synthesized
email and referral code are fresh: the new user (id `s.nextUserId`) is
inserted, the responses, the completion record, the reward transaction, the
recomputed cached balance and the activity log are all committed.  Spelled
out so that theorems can apply the characterization twice in a row. -/
def postSubmitFresh (s : DBState) (sid : Nat) (resp : List (String × AnswerVal))
    (ip ua : String) (t : Nat) (sv : Survey) : DBState :=
  let uid := s.nextUserId
  let newU : User :=
    { id := uid, email := tempEmail t ip, balance := 0,
      referral_code := referralCode t, referred_by := none,
      total_referrals := 0, ip_address := ip, user_agent := ua,
      updated_at := t }
  let tx : Transaction :=
    { user_id := uid, transaction_type := .survey_reward,
      amount := sv.reward_amount,
      description := "Recompensa por completar encuesta: " ++ sv.survey_key,
      reference_id := some sv.survey_key, paypal_email := none,
      status := .completed }
  let txs := s.transactions ++ [tx]
  { users := (s.users ++ [newU]).map fun u =>
      if u.id = uid then { u with balance := balanceUpdateSum txs uid } else u,
    surveys := s.surveys,
    survey_questions := s.survey_questions,
    user_survey_responses := s.user_survey_responses ++
      saveResponses uid sid s.survey_questions resp,
    user_completed_surveys := s.user_completed_surveys ++
      [{ user_id := uid, survey_id := sid, reward_paid := true }],
    transactions := txs,
    withdrawal_requests := s.withdrawal_requests,
    activity_logs := s.activity_logs ++
      [{ user_id := uid, activity_type := "survey_completed",
         description := "Completó encuesta: " ++ sv.survey_key,
         ip_address := ip, user_agent := some ua }],
    referrals := s.referrals,
    config := s.config,
    nextUserId := uid + 1 }

/-! Concrete states used to evaluate the routes at explicit inputs. -/

/-- The shipped configuration (`src/unnamed/part_001` initial inserts):
threshold 10 referrals, bonus 10 EUR. -/
def cfg0 : SystemConfig :=
  { referral_bonus_threshold := 10, referral_bonus_amount := 10 }

/-- A freshly initialised database. -/
def emptyDB : DBState :=
  { users := [], surveys := [], survey_questions := [], user_survey_responses := [],
    user_completed_surveys := [], transactions := [], withdrawal_requests := [],
    activity_logs := [], referrals := [], config := cfg0, nextUserId := 0 }

/-- A user row with a given cached balance. -/
def mkUser (bal : Int) : User :=
  { id := 0, email := "a@b.com", balance := bal, referral_code := "R1",
    referred_by := none, total_referrals := 0, ip_address := "ip0",
    user_agent := "ua0", updated_at := 0 }

/-- A completed survey-reward ledger entry of the given amount for user 0. -/
def mkRewardTx (amt : Int) : Transaction :=
  { user_id := 0, transaction_type := .survey_reward, amount := amt,
    description := "", reference_id := none, paypal_email := none,
    status := .completed }

/-- A pending withdrawal-debit ledger entry of the given amount for user 0. -/
def mkPendingWdr (amt : Int) : Transaction :=
  { user_id := 0, transaction_type := .withdrawal_request, amount := amt,
    description := "", reference_id := none, paypal_email := none,
    status := .pending }

/-- A ledger holding a completed reward of 10, a pending withdrawal debit of 5
and a failed reward of 7, all for user 0. -/
def txsMixed : List Transaction :=
  [mkRewardTx 10, mkPendingWdr 5,
   { user_id := 0, transaction_type := .survey_reward, amount := 7,
     description := "", reference_id := none, paypal_email := none,
     status := .failed }]

/-- User 0 with cached balance 5 backed by one completed reward of 5. -/
def sBal5 : DBState :=
  { emptyDB with
    users := [mkUser 5], transactions := [mkRewardTx 5], nextUserId := 1 }

/-- User 0 with cached balance 5 whose ledger additionally holds a pending
withdrawal debit of 5 (as after a concurrently committed withdrawal whose
cache refresh never happened — the withdrawal route performs none). -/
def sStale : DBState :=
  { emptyDB with
    users := [mkUser 5], transactions := [mkRewardTx 5, mkPendingWdr 5],
    nextUserId := 1 }

/-- User 0 with cached balance 2 and nothing else. -/
def sBal2 : DBState :=
  { emptyDB with users := [mkUser 2], nextUserId := 1 }

/-- A database holding only one inactive survey. -/
def sInactive : DBState :=
  { emptyDB with
    surveys := [{ id := 1, survey_key := "k", reward_amount := 5,
                  is_active := false }] }

/-- A database holding only one active survey. -/
def sOneSurvey : DBState :=
  { emptyDB with
    surveys := [{ id := 1, survey_key := "k", reward_amount := 5,
                  is_active := true }] }

/-- User 0 with ten referrals and no ledger entries. -/
def sTenReferrals : DBState :=
  { emptyDB with
    users := [mkUser 0], referrals := (List.range 10).map (fun i => (0, i + 1)),
    nextUserId := 1 }

end SASAA

namespace SASAA

/-! Theorems settling the claims. -/

/-- C1 (counterexample): the claimed section-4.2 counting rule (pending
withdrawal debits deducted, failed/cancelled excluded) matches NEITHER
balance computation of the source.  On a ledger with a completed reward of
10, a pending withdrawal debit of 5 and a failed reward of 7, the claimed
rule yields 5, while the submit route's recomputation yields 10 (it ignores
the pending debit) and schema.sql's `get_user_balance` yields 12 (it also
counts the failed entry). -/
theorem c1_counterexample :
    spec_counted_balance txsMixed 0 = 5 ∧
    balanceUpdateSum txsMixed 0 = 10 ∧
    get_user_balance txsMixed 0 = 12 := by
  decide

/-- C2 (code bug evidence): for user 0 with balance 5 (one completed reward
of 5, cached column in sync), two successive `requestWithdrawal` calls of 5
each BOTH succeed, jointly withdrawing 10 > 5 and driving the ledger-derived
balance (under the spec's counting rule, and even under schema.sql's
`get_user_balance`) to -5.  The route's balance check reads the cached
`users.balance` column, which no withdrawal ever decrements. -/
theorem c2_overdraft :
    spec_counted_balance sBal5.transactions 0 = 5 ∧
    (requestWithdrawal sBal5 0 5 "p@p" "ip").1 = .success ∧
    (requestWithdrawal (requestWithdrawal sBal5 0 5 "p@p" "ip").2
      0 5 "p@p" "ip").1 = .success ∧
    spec_counted_balance
      (requestWithdrawal (requestWithdrawal sBal5 0 5 "p@p" "ip").2
        0 5 "p@p" "ip").2.transactions 0 = -5 ∧
    get_user_balance
      (requestWithdrawal (requestWithdrawal sBal5 0 5 "p@p" "ip").2
        0 5 "p@p" "ip").2.transactions 0 = -5 := by
  decide

/-- C3 (code bug evidence): in state `sStale` the ledger of user 0 holds a
completed reward of 5 and a pending withdrawal debit of 5, so recomputing
the balance per the spec's counting rule (or even per schema.sql's
`get_user_balance`) yields 0; yet `requestWithdrawal` of 5 succeeds, because
the route's check reads the cached `users.balance` column (5) instead of
recomputing from the ledger inside the transaction. -/
theorem c3_cached_read :
    spec_counted_balance sStale.transactions 0 = 0 ∧
    get_user_balance sStale.transactions 0 = 0 ∧
    (requestWithdrawal sStale 0 5 "p@p" "ip").1 = .success := by
  decide

/-- C5 (code bug evidence): submitting to survey id 1 in a database with no
surveys at all commits the freshly created user and reports success (with 0
responses), inserting no completion record and no ledger entry — there is no
SurveyNotFound failure.  Submitting to an INACTIVE survey also reports
success and credits the reward — there is no SurveyInactive failure either. -/
theorem c5_missing_survey_success :
    emptyDB.surveys = [] ∧
    (submitSurvey emptyDB 1 [] (some "x@y") "ip" "ua" 0).1 = .success 0 0 ∧
    (submitSurvey emptyDB 1 [] (some "x@y") "ip" "ua" 0).2.user_completed_surveys
      = [] ∧
    (submitSurvey emptyDB 1 [] (some "x@y") "ip" "ua" 0).2.transactions = [] ∧
    sInactive.surveys.map Survey.is_active = [false] ∧
    (submitSurvey sInactive 1 [] (some "x@y") "ip" "ua" 0).1 = .success 0 0 ∧
    rewardTxCount (submitSurvey sInactive 1 [] (some "x@y") "ip" "ua" 0).2 0 "k"
      = 1 := by
  decide

/-- C6 (counterexample): a below-minimum withdrawal does NOT always fail with
the BelowMinimum error.  User 0 has cached balance 2; requesting 3 (below
the floor of 5) fails with 'Saldo insuficiente' (InsufficientBalance),
because the route checks the balance BEFORE the minimum. -/
theorem c6_counterexample :
    ((3 : Int) < 5) ∧
    (requestWithdrawal sBal2 0 3 "p@p" "ip").1 = .error "Saldo insuficiente" := by
  decide

/-- C7 (counterexample): resolving an existing contact key refreshes MORE
than the observed origin and client signature: the row's `updated_at`
timestamp changes as well (`ON CONFLICT ... DO UPDATE SET ip_address = $2,
user_agent = $3, updated_at = NOW()`).  Here the pre-state row has
`updated_at = 0` and the refreshed row has `updated_at = 5`. -/
theorem c7_counterexample :
    sBal2.users.map User.updated_at = [0] ∧
    (upsertUser sBal2 "a@b.com" "ip1" "ua1" "REF999999" 5).toOption.map
      (fun p => p.2.users.map User.updated_at) = some [5] := by
  decide

/-- C10 (counterexample): two anonymous submissions at DISTINCT timestamps
1000000 and 2000000 are not both rewarded: both timestamps end in the same
six decimal digits, so both calls generate referral code REF000000; the
second user insert violates the `users.referral_code` UNIQUE constraint and
the whole second submission rolls back with an error, leaving a single
reward entry. -/
theorem c10_counterexample :
    (1000000 : Nat) ≠ 2000000 ∧
    referralCode 1000000 = "REF000000" ∧
    referralCode 2000000 = "REF000000" ∧
    (submitSurvey sOneSurvey 1 [] none "a" "ua" 1000000).1 = .success 0 0 ∧
    (submitSurvey (submitSurvey sOneSurvey 1 [] none "a" "ua" 1000000).2
      1 [] none "b" "ua" 2000000).1 =
      .error "duplicate key value violates unique constraint users_referral_code_key" ∧
    ((submitSurvey (submitSurvey sOneSurvey 1 [] none "a" "ua" 1000000).2
        1 [] none "b" "ua" 2000000).2.transactions.filter
      (fun t => decide (t.transaction_type = TransactionType.survey_reward))).length
      = 1 := by
  decide

/-- C1 (amended): the submit route's balance recomputation equals the spec's
section-4.2 counting rule restricted to status-completed entries only — in
particular pending withdrawal debits are NOT counted as deducted by the code;
and schema.sql's `get_user_balance` agrees with the section-4.2 rule exactly
on ledgers with no failed and no cancelled entries, because it excludes no
status at all. -/
theorem c1_amended :
    (∀ (txs : List Transaction) (uid : Nat),
      balanceUpdateSum txs uid =
        spec_counted_balance
          (txs.filter fun t => decide (t.status = TxStatus.completed)) uid) ∧
    (∀ (txs : List Transaction) (uid : Nat),
      (∀ t ∈ txs, t.status ≠ TxStatus.failed ∧ t.status ≠ TxStatus.cancelled) →
      get_user_balance txs uid = spec_counted_balance txs uid) := by
  constructor
  · intro txs uid
    simp only [balanceUpdateSum, spec_counted_balance, List.filter_filter]
    have hf : (txs.filter fun t =>
        decide (t.user_id = uid ∧ t.status = TxStatus.completed)) =
        txs.filter (fun t =>
          decide (t.user_id = uid ∧
            t.status ≠ TxStatus.failed ∧ t.status ≠ TxStatus.cancelled) &&
          decide (t.status = TxStatus.completed)) := by
      apply List.filter_congr
      intro t _
      cases ht : t.status <;> by_cases hu : t.user_id = uid <;> simp [ht, hu]
    rw [hf]
  · intro txs uid h
    simp only [get_user_balance, spec_counted_balance]
    have hf : (txs.filter fun t => decide (t.user_id = uid)) =
        txs.filter fun t =>
          decide (t.user_id = uid ∧
            t.status ≠ TxStatus.failed ∧ t.status ≠ TxStatus.cancelled) := by
      apply List.filter_congr
      intro t htm
      obtain ⟨h1, h2⟩ := h t htm
      by_cases hu : t.user_id = uid <;> simp [hu, h1, h2]
    rw [hf]

/-- C1 witness: the amended statement evaluated at the mixed ledger and at a
ledger with completed entries only. -/
theorem c1_amended_witness :
    (balanceUpdateSum txsMixed 0 =
      spec_counted_balance
        (txsMixed.filter fun t => decide (t.status = TxStatus.completed)) 0) ∧
    ((∀ t ∈ [mkRewardTx 5],
        t.status ≠ TxStatus.failed ∧ t.status ≠ TxStatus.cancelled) ∧
      get_user_balance [mkRewardTx 5] 0 = spec_counted_balance [mkRewardTx 5] 0) :=
  ⟨c1_amended.1 txsMixed 0, by decide, c1_amended.2 [mkRewardTx 5] 0 (by decide)⟩

/-- C6 (amended): every below-minimum withdrawal fails and leaves the state
unchanged (no ledger entry, no withdrawal row is appended), but the reported
error is BelowMinimum only when the user exists and their cached balance
covers the amount: the route checks account existence and balance FIRST, so
a below-minimum request against a too-small cached balance reports
InsufficientBalance, and against a missing user reports AccountNotFound. -/
theorem c6_amended (s : DBState) (uid : Nat) (amount : Int) (pp ip : String)
    (h : amount < 5) :
    requestWithdrawal s uid amount pp ip =
      (match s.users.find? (fun u => decide (u.id = uid)) with
       | none => (.error "Usuario no encontrado", s)
       | some u =>
         if u.balance < amount then (.error "Saldo insuficiente", s)
         else (.error "El monto mínimo de retiro es 5 EUR", s)) := by
  rw [requestWithdrawal]
  cases hf : s.users.find? (fun u => decide (u.id = uid)) with
  | none => rfl
  | some u =>
    by_cases hb : u.balance < amount
    · simp [hb]
    · simp [hb, h]

/-- C6 witness: amount 3 is below the floor; with cached balance 2 the call
fails (with the InsufficientBalance message, per the amended claim) and the
state is unchanged. -/
theorem c6_amended_witness :
    ((3 : Int) < 5) ∧
    requestWithdrawal sBal2 0 3 "p@p" "ip" = (.error "Saldo insuficiente", sBal2) :=
  ⟨by decide, (c6_amended sBal2 0 3 "p@p" "ip" (by decide)).trans (by decide)⟩

/-- C9 (confirmed): a successful `requestWithdrawal` modifies no `users` row —
the cached balance column keeps exactly its pre-call value (so the next
withdrawal's check reads the pre-withdrawal cached balance); the debit exists
only as one new `transactions` row and one new `withdrawal_requests` row
(plus the activity-log row); every other table is untouched. -/
theorem c9_withdrawal_frame (s : DBState) (uid : Nat) (amount : Int)
    (pp ip : String) (s2 : DBState)
    (h : requestWithdrawal s uid amount pp ip = (.success, s2)) :
    s2.users = s.users ∧
    s2.surveys = s.surveys ∧
    s2.survey_questions = s.survey_questions ∧
    s2.user_survey_responses = s.user_survey_responses ∧
    s2.user_completed_surveys = s.user_completed_surveys ∧
    s2.referrals = s.referrals ∧
    s2.config = s.config ∧
    s2.nextUserId = s.nextUserId ∧
    s2.transactions = s.transactions ++
      [{ user_id := uid, transaction_type := .withdrawal_request,
         amount := amount, description := "Solicitud de retiro vía PayPal",
         reference_id := none, paypal_email := some pp,
         status := .pending }] ∧
    s2.withdrawal_requests = s.withdrawal_requests ++
      [{ user_id := uid, amount := amount, paypal_email := pp,
         status := "pending" }] ∧
    s2.activity_logs = s.activity_logs ++
      [{ user_id := uid, activity_type := "withdrawal_requested",
         description := "Solicitó retiro de " ++ toString amount ++ " EUR",
         ip_address := ip, user_agent := none }] ∧
    (s2.users.find? (fun u => decide (u.id = uid))).map User.balance =
      (s.users.find? (fun u => decide (u.id = uid))).map User.balance := by
  rw [requestWithdrawal] at h
  split at h
  · simp at h
  · split at h
    · simp at h
    · split at h
      · simp at h
      · have hs := congrArg Prod.snd h
        dsimp only at hs
        subst hs
        refine ⟨rfl, rfl, rfl, rfl, rfl, rfl, rfl, rfl, rfl, rfl, rfl, rfl⟩

/-- C9 witness: the frame theorem applied to the concrete successful
withdrawal of 5 against balance 5. -/
theorem c9_withdrawal_frame_witness :
    (requestWithdrawal sBal5 0 5 "p@p" "ip").2.users = sBal5.users :=
  (c9_withdrawal_frame sBal5 0 5 "p@p" "ip"
    (requestWithdrawal sBal5 0 5 "p@p" "ip").2 (by decide)).1

/-- A user with no referral-bonus ledger entry at all in particular has no
completed one, so the prior-bonus check of `check_referral_bonus` is false. -/
theorem hasReferralBonus_false_of_none (s : DBState) (uid : Nat)
    (h : bonusTxCount s uid = 0) : hasReferralBonus s uid = false := by
  have hnil : (s.transactions.filter fun t =>
      decide (t.user_id = uid ∧
        t.transaction_type = TransactionType.referral_bonus)) = [] :=
    List.length_eq_zero.mp h
  simp only [hasReferralBonus, List.any_eq_false, decide_eq_true_eq]
  rintro t ht ⟨h1, h2, h3⟩
  have hmem : t ∈ (s.transactions.filter fun t =>
      decide (t.user_id = uid ∧
        t.transaction_type = TransactionType.referral_bonus)) := by
    rw [List.mem_filter]
    exact ⟨ht, by simp [h1, h2]⟩
  rw [hnil] at hmem
  exact absurd hmem (List.not_mem_nil t)

/-- C8 (confirmed): the referral bonus is idempotent per account.  First part:
once a completed referral-bonus entry exists, an invocation of the trigger
returns false and changes nothing.  Second part: for an account with no
referral-bonus entry whose referral count has reached the configured
threshold, the trigger appends exactly one referral-bonus entry, and the
resulting state is a fixed point of the trigger — any number of further
invocations appends nothing. -/
theorem c8_referral_bonus_idempotent :
    (∀ (s : DBState) (uid : Nat), hasReferralBonus s uid = true →
      check_referral_bonus s uid = (false, s)) ∧
    (∀ (s : DBState) (uid : Nat), bonusTxCount s uid = 0 →
      s.config.referral_bonus_threshold ≤ (referralCountOf s uid : Int) →
      ∃ s2, check_referral_bonus s uid = (true, s2) ∧
        bonusTxCount s2 uid = 1 ∧
        check_referral_bonus s2 uid = (false, s2) ∧
        ∀ n, iterateBonus n s2 uid = s2) := by
  have hstop : ∀ (s : DBState) (uid : Nat), hasReferralBonus s uid = true →
      check_referral_bonus s uid = (false, s) := by
    intro s uid h
    simp only [check_referral_bonus]
    rw [if_neg]
    simp [h]
  refine ⟨hstop, ?_⟩
  intro s uid h0 hth
  have hfalse : hasReferralBonus s uid = false :=
    hasReferralBonus_false_of_none s uid h0
  have h0l : (s.transactions.filter fun t =>
      decide (t.user_id = uid ∧
        t.transaction_type = TransactionType.referral_bonus)).length = 0 := h0
  simp only [check_referral_bonus]
  rw [if_pos ⟨hth, hfalse⟩]
  refine ⟨_, rfl, ?_, ?_, ?_⟩
  · simp only [bonusTxCount, List.filter_append, List.length_append, h0l]
    simp
  · apply hstop
    simp [hasReferralBonus]
  · intro n
    induction n with
    | zero => rfl
    | succ m ih =>
      rw [iterateBonus]
      rw [hstop _ uid (by simp [hasReferralBonus])]
      exact ih

/-- C8 witness: user 0 of `sTenReferrals` has 10 referrals (the configured
threshold) and no bonus entry; the theorem applies. -/
theorem c8_witness :
    bonusTxCount sTenReferrals 0 = 0 ∧
    sTenReferrals.config.referral_bonus_threshold ≤
      (referralCountOf sTenReferrals 0 : Int) ∧
    ∃ s2, check_referral_bonus sTenReferrals 0 = (true, s2) ∧
      bonusTxCount s2 0 = 1 ∧
      check_referral_bonus s2 0 = (false, s2) ∧
      ∀ n, iterateBonus n s2 0 = s2 :=
  ⟨by decide, by decide,
   c8_referral_bonus_idempotent.2 sTenReferrals 0 (by decide) (by decide)⟩

/-- The conflict-update of the upsert preserves any field other than
ip_address, user_agent and updated_at, pointwise over the user list. -/
theorem refreshUser_map_field {β : Type} (e ip ua : String) (now : Nat)
    (f : User → β)
    (hf : ∀ v : User,
      f { v with ip_address := ip, user_agent := ua, updated_at := now } = f v) :
    ∀ l : List User, (refreshUser e ip ua now l).map f = l.map f := by
  intro l
  induction l with
  | nil => rfl
  | cons v rest ih =>
    rw [refreshUser]
    by_cases hv : v.email = e
    · rw [if_pos hv]
      simp [hf]
    · rw [if_neg hv]
      simp [ih]

/-- The conflict-update of the upsert inserts no row and deletes no row. -/
theorem refreshUser_length (e ip ua : String) (now : Nat) :
    ∀ l : List User, (refreshUser e ip ua now l).length = l.length := by
  intro l
  induction l with
  | nil => rfl
  | cons v rest ih =>
    rw [refreshUser]
    by_cases hv : v.email = e
    · rw [if_pos hv]
      simp
    · rw [if_neg hv]
      simp [ih]

/-- After the conflict-update, looking the email up finds the same row with
exactly ip_address, user_agent and updated_at replaced. -/
theorem refreshUser_find (e ip ua : String) (now : Nat) :
    ∀ (l : List User) (u : User),
      l.find? (fun v => decide (v.email = e)) = some u →
      (refreshUser e ip ua now l).find? (fun v => decide (v.email = e)) =
        some { u with ip_address := ip, user_agent := ua, updated_at := now } := by
  intro l
  induction l with
  | nil => intro u h; simp at h
  | cons v rest ih =>
    intro u h
    by_cases hv : v.email = e
    · rw [List.find?_cons_of_pos _ (by simp [hv])] at h
      injection h with h1
      rw [refreshUser, if_pos hv]
      rw [List.find?_cons_of_pos _ (by simp [hv])]
      rw [h1]
    · rw [List.find?_cons_of_neg _ (by simp [hv])] at h
      rw [refreshUser, if_neg hv]
      rw [List.find?_cons_of_neg _ (by simp [hv])]
      exact ih u h

/-- Rows whose email is not the conflicting key are returned unchanged by the
conflict-update. -/
theorem refreshUser_mem_of_ne (e ip ua : String) (now : Nat) :
    ∀ (l : List User) (v : User),
      v ∈ refreshUser e ip ua now l → v.email ≠ e → v ∈ l := by
  intro l
  induction l with
  | nil => intro v hv _; simp [refreshUser] at hv
  | cons w rest ih =>
    intro v hv hne
    by_cases hw : w.email = e
    · rw [refreshUser, if_pos hw] at hv
      rcases List.mem_cons.mp hv with h1 | h2
      · exact absurd (by rw [h1]; exact hw) hne
      · exact List.mem_cons.mpr (Or.inr h2)
    · rw [refreshUser, if_neg hw] at hv
      rcases List.mem_cons.mp hv with h1 | h2
      · rw [h1]; exact List.mem_cons_self w rest
      · exact List.mem_cons.mpr (Or.inr (ih v h2 hne))

/-- C7 (amended): when an account with the supplied contact key exists, the
upsert returns that account's id and refreshes its observed origin, client
signature AND its `updated_at` timestamp; no other field changes (ids,
emails, balances and referral codes are preserved across the whole user
list, rows with other emails are returned unchanged) and no account is
created or destroyed, so serialized requests with an existing key can never
create a second account. -/
theorem c7_amended (s : DBState) (e ip ua rc : String) (now : Nat) (u : User)
    (h : s.users.find? (fun v => decide (v.email = e)) = some u) :
    upsertUser s e ip ua rc now =
      .ok (u.id, { s with users := refreshUser e ip ua now s.users }) ∧
    (refreshUser e ip ua now s.users).length = s.users.length ∧
    (refreshUser e ip ua now s.users).find? (fun v => decide (v.email = e)) =
      some { u with ip_address := ip, user_agent := ua, updated_at := now } ∧
    (refreshUser e ip ua now s.users).map User.id = s.users.map User.id ∧
    (refreshUser e ip ua now s.users).map User.email = s.users.map User.email ∧
    (refreshUser e ip ua now s.users).map User.balance =
      s.users.map User.balance ∧
    (refreshUser e ip ua now s.users).map User.referral_code =
      s.users.map User.referral_code ∧
    ∀ v ∈ refreshUser e ip ua now s.users, v.email ≠ e → v ∈ s.users := by
  refine ⟨?_, refreshUser_length e ip ua now s.users,
    refreshUser_find e ip ua now s.users u h,
    refreshUser_map_field e ip ua now User.id (fun v => rfl) s.users,
    refreshUser_map_field e ip ua now User.email (fun v => rfl) s.users,
    refreshUser_map_field e ip ua now User.balance (fun v => rfl) s.users,
    refreshUser_map_field e ip ua now User.referral_code (fun v => rfl) s.users,
    refreshUser_mem_of_ne e ip ua now s.users⟩
  rw [upsertUser, h]

/-- C7 witness: the amended statement applied to the concrete state `sBal2`,
whose single user holds the key. -/
theorem c7_amended_witness :
    sBal2.users.find? (fun v => decide (v.email = "a@b.com")) = some (mkUser 2) ∧
    upsertUser sBal2 "a@b.com" "ip1" "ua1" "REF111111" 7 =
      .ok ((mkUser 2).id,
        { sBal2 with users := refreshUser "a@b.com" "ip1" "ua1" 7 sBal2.users }) ∧
    (refreshUser "a@b.com" "ip1" "ua1" 7 sBal2.users).map User.balance =
      sBal2.users.map User.balance := by
  have h := c7_amended sBal2 "a@b.com" "ip1" "ua1" "REF111111" 7 (mkUser 2)
    (by decide)
  exact ⟨by decide, h.1, h.2.2.2.2.2.1⟩

/-- A successful upsert changes no table other than `users` (and the id
counter). -/
theorem upsertUser_ok_frame {s : DBState} {e ip ua rc : String} {now : Nat}
    {uid : Nat} {s2 : DBState}
    (h : upsertUser s e ip ua rc now = .ok (uid, s2)) :
    s2.surveys = s.surveys ∧ s2.survey_questions = s.survey_questions ∧
    s2.user_survey_responses = s.user_survey_responses ∧
    s2.user_completed_surveys = s.user_completed_surveys ∧
    s2.transactions = s.transactions ∧
    s2.withdrawal_requests = s.withdrawal_requests ∧
    s2.activity_logs = s.activity_logs ∧
    s2.referrals = s.referrals ∧ s2.config = s.config := by
  cases hf : s.users.find? (fun v => decide (v.email = e)) with
  | some u =>
    simp only [upsertUser, hf, Except.ok.injEq, Prod.mk.injEq] at h
    obtain ⟨h1, h2⟩ := h
    subst h2
    exact ⟨rfl, rfl, rfl, rfl, rfl, rfl, rfl, rfl, rfl⟩
  | none =>
    simp only [upsertUser, hf] at h
    split at h
    · simp at h
    · simp only [Except.ok.injEq, Prod.mk.injEq] at h
      obtain ⟨h1, h2⟩ := h
      subst h2
      exact ⟨rfl, rfl, rfl, rfl, rfl, rfl, rfl, rfl, rfl⟩

/-- A successful upsert leaves a user row carrying the requested email whose
id is the returned id. -/
theorem upsertUser_ok_find {s : DBState} {e ip ua rc : String} {now : Nat}
    {uid : Nat} {s2 : DBState}
    (h : upsertUser s e ip ua rc now = .ok (uid, s2)) :
    ∃ u2 : User, s2.users.find? (fun v => decide (v.email = e)) = some u2 ∧
      u2.id = uid := by
  cases hf : s.users.find? (fun v => decide (v.email = e)) with
  | some u =>
    simp only [upsertUser, hf, Except.ok.injEq, Prod.mk.injEq] at h
    obtain ⟨h1, h2⟩ := h
    subst h2
    exact ⟨{ u with ip_address := ip, user_agent := ua, updated_at := now },
      refreshUser_find e ip ua now s.users u hf, h1⟩
  | none =>
    simp only [upsertUser, hf] at h
    split at h
    · simp at h
    · simp only [Except.ok.injEq, Prod.mk.injEq] at h
      obtain ⟨h1, h2⟩ := h
      subst h2
      refine ⟨⟨s.nextUserId, e, 0, rc, none, 0, ip, ua, now⟩, ?_, h1⟩
      rw [List.find?_append, hf]
      simp

/-- The cached-balance refresh of the submit route preserves emails, so user
lookup by email commutes with it. -/
theorem find?_email_balanceMap (l : List User) (target : Nat) (B : Int)
    (e : String) :
    (l.map fun u => if u.id = target then { u with balance := B } else u).find?
        (fun v => decide (v.email = e)) =
      (l.find? (fun v => decide (v.email = e))).map
        (fun u => if u.id = target then { u with balance := B } else u) := by
  rw [List.find?_map]
  have hp : ((fun v : User => decide (v.email = e)) ∘
      (fun u : User => if u.id = target then { u with balance := B } else u)) =
      (fun v : User => decide (v.email = e)) := by
    funext u
    by_cases hu : u.id = target <;> simp [Function.comp, hu]
  rw [hp]

/-- C4 (confirmed, serialized model): when a submission for survey `sid`
(which exists) under contact key `e` succeeds, the (account, survey) pair had
no completion record before, has exactly one afterwards, the account has
exactly one reward-credit ledger entry referencing the survey key, and EVERY
later submission for the same key and survey — with any answers, origin,
signature or timestamp — fails with AlreadyCompleted and returns the state
unchanged (no partial writes).  Concurrent duplicate submissions are modelled
by their serialization order: the database's uniqueness constraint on
(user_id, survey_id) forces the loser of the race into this same error
path. -/
theorem c4_submit_at_most_once (s : DBState) (sid : Nat)
    (resp : List (String × AnswerVal)) (e ip ua : String) (now : Nat)
    (sv : Survey) (uid n : Nat) (s1 : DBState)
    (hsv : s.surveys.find? (fun v => decide (v.id = sid)) = some sv)
    (h1 : submitSurvey s sid resp (some e) ip ua now = (.success uid n, s1))
    (h0 : rewardTxCount s uid sv.survey_key = 0) :
    countCompleted s uid sid = 0 ∧
    countCompleted s1 uid sid = 1 ∧
    rewardTxCount s1 uid sv.survey_key = 1 ∧
    ∀ (resp2 : List (String × AnswerVal)) (ip2 ua2 : String) (now2 : Nat),
      submitSurvey s1 sid resp2 (some e) ip2 ua2 now2 =
        (.error "Ya has completado esta encuesta", s1) := by
  rw [submitSurvey] at h1
  simp only [Option.getD_some] at h1
  cases hup : upsertUser s e ip ua (referralCode now) now with
  | error m => simp [hup] at h1
  | ok p =>
    obtain ⟨uid0, sA⟩ := p
    simp only [hup] at h1
    obtain ⟨hq, -, -, hcm, htx, -, -, -, -⟩ := upsertUser_ok_frame hup
    by_cases hc : (sA.user_completed_surveys.any fun c =>
        decide (c.user_id = uid0 ∧ c.survey_id = sid)) = true
    · rw [if_pos hc] at h1
      simp at h1
    · rw [if_neg hc] at h1
      rw [hq, hsv] at h1
      simp only [Prod.mk.injEq, SubmitResult.success.injEq] at h1
      obtain ⟨⟨huid, hn⟩, hs1⟩ := h1
      subst huid
      subst hs1
      have hcf : (sA.user_completed_surveys.any fun c =>
          decide (c.user_id = uid0 ∧ c.survey_id = sid)) = false := by
        revert hc
        cases sA.user_completed_surveys.any fun c =>
            decide (c.user_id = uid0 ∧ c.survey_id = sid) <;> simp
      have hnilc : (s.user_completed_surveys.filter fun c =>
          decide (c.user_id = uid0 ∧ c.survey_id = sid)) = [] := by
        rw [List.filter_eq_nil_iff]
        rw [hcm] at hcf
        exact fun c hcmem => by
          have := List.any_eq_false.mp hcf c hcmem
          simpa using this
      have hA : countCompleted s uid0 sid = 0 := by
        rw [countCompleted, hnilc]
        rfl
      refine ⟨hA, ?_, ?_, ?_⟩
      · show ((sA.user_completed_surveys ++
          [({ user_id := uid0, survey_id := sid, reward_paid := true } :
            CompletedSurvey)]).filter
            fun c => decide (c.user_id = uid0 ∧ c.survey_id = sid)).length = 1
        rw [List.filter_append, hcm, hnilc]
        simp
      · show ((sA.transactions ++
          [({ user_id := uid0, transaction_type := .survey_reward,
              amount := sv.reward_amount,
              description := "Recompensa por completar encuesta: " ++
                sv.survey_key,
              reference_id := some sv.survey_key, paypal_email := none,
              status := .completed } : Transaction)]).filter fun t =>
          decide (t.user_id = uid0 ∧
            t.transaction_type = TransactionType.survey_reward ∧
            t.reference_id = some sv.survey_key)).length = 1
        rw [List.filter_append, htx]
        have h0l : (s.transactions.filter fun t =>
            decide (t.user_id = uid0 ∧
              t.transaction_type = TransactionType.survey_reward ∧
              t.reference_id = some sv.survey_key)).length = 0 := h0
        rw [List.length_append, h0l]
        simp
      · intro resp2 ip2 ua2 now2
        obtain ⟨u2, hu2find, hu2id⟩ := upsertUser_ok_find hup
        rw [submitSurvey]
        simp only [Option.getD_some]
        have hfind2 : ((sA.users.map fun u =>
            if u.id = uid0 then
              { u with balance := balanceUpdateSum (sA.transactions ++
                [{ user_id := uid0, transaction_type := .survey_reward,
                   amount := sv.reward_amount,
                   description := "Recompensa por completar encuesta: " ++
                     sv.survey_key,
                   reference_id := some sv.survey_key, paypal_email := none,
                   status := .completed }]) uid0 }
            else u).find? (fun v => decide (v.email = e))) =
            some { u2 with balance := balanceUpdateSum (sA.transactions ++
              [{ user_id := uid0, transaction_type := .survey_reward,
                 amount := sv.reward_amount,
                 description := "Recompensa por completar encuesta: " ++
                   sv.survey_key,
                 reference_id := some sv.survey_key, paypal_email := none,
                 status := .completed }]) uid0 } := by
          rw [find?_email_balanceMap, hu2find]
          simp [hu2id]
        rw [upsertUser]
        rw [hfind2]
        dsimp only
        split
        · rfl
        · rename_i hcond
          exfalso
          apply hcond
          rw [List.any_eq_true]
          refine ⟨{ user_id := uid0, survey_id := sid, reward_paid := true },
            List.mem_append_right _ (by simp), by simp [hu2id]⟩
/-- C4 witness: the at-most-once theorem applied to a concrete first
submission against `sOneSurvey`. -/
theorem c4_witness :
    sOneSurvey.surveys.find? (fun v => decide (v.id = 1)) =
      some { id := 1, survey_key := "k", reward_amount := 5,
             is_active := true } ∧
    submitSurvey sOneSurvey 1 [] (some "x@y") "ip" "ua" 0 =
      (.success 0 0, (submitSurvey sOneSurvey 1 [] (some "x@y") "ip" "ua" 0).2) ∧
    rewardTxCount sOneSurvey 0 "k" = 0 ∧
    countCompleted (submitSurvey sOneSurvey 1 [] (some "x@y") "ip" "ua" 0).2 0 1
      = 1 := by
  have h := c4_submit_at_most_once sOneSurvey 1 [] "x@y" "ip" "ua" 0
    { id := 1, survey_key := "k", reward_amount := 5, is_active := true } 0 0
    (submitSurvey sOneSurvey 1 [] (some "x@y") "ip" "ua" 0).2
    (by decide) (by decide) (by decide)
  exact ⟨by decide, by decide, by decide, h.2.1⟩

/-- Unfolding of the fuel-driven core printer to the structural decimal digit
list, for any sufficient fuel. -/
theorem toDigitsCore_eq_decDigits :
    ∀ (fuel n : Nat) (ds : List Char), n < fuel →
      Nat.toDigitsCore 10 fuel n ds = decDigits n ++ ds := by
  intro fuel
  induction fuel with
  | zero => intro n ds h; exact absurd h (Nat.not_lt_zero n)
  | succ f ih =>
    intro n ds h
    rw [Nat.toDigitsCore]
    by_cases h10 : n / 10 = 0
    · rw [if_pos h10]
      have hn10 : n < 10 := by omega
      rw [decDigits]
      rw [dif_pos hn10, Nat.mod_eq_of_lt hn10]
      rfl
    · rw [if_neg h10]
      have hn10 : ¬ n < 10 := by omega
      have hlt : n / 10 < f := by omega
      rw [ih (n / 10) (Nat.digitChar (n % 10) :: ds) hlt]
      conv_rhs => rw [decDigits]
      rw [dif_neg hn10]
      simp

/-- The decimal rendering of a timestamp used in the synthesized contact key
is exactly the structural digit list. -/
theorem repr_data_eq (n : Nat) : (Nat.repr n).data = decDigits n := by
  show (Nat.toDigits 10 n).asString.data = decDigits n
  rw [Nat.toDigits, toDigitsCore_eq_decDigits (n + 1) n [] (Nat.lt_succ_self n)]
  show decDigits n ++ [] = decDigits n
  exact List.append_nil (decDigits n)

/-- Every character of the decimal digit list is a digit character. -/
theorem mem_decDigits (n : Nat) :
    ∀ c ∈ decDigits n, ∃ k, k < 10 ∧ c = Nat.digitChar k := by
  induction n using Nat.strong_induction_on with
  | _ n ih =>
    rw [decDigits]
    split
    · rename_i h
      intro c hc
      rw [List.mem_singleton] at hc
      exact ⟨n, h, hc⟩
    · rename_i h
      intro c hc
      rcases List.mem_append.mp hc with h1 | h2
      · exact ih (n / 10) (Nat.div_lt_self (by omega) (by omega)) c h1
      · rw [List.mem_singleton] at h2
        exact ⟨n % 10, Nat.mod_lt n (by omega), h2⟩

/-- The decimal digit list is never empty. -/
theorem decDigits_ne_nil (n : Nat) : decDigits n ≠ [] := by
  rw [decDigits]
  split
  · simp
  · simp

/-- Distinct digit values below the base print to distinct characters. -/
theorem digitChar_inj_lt : ∀ j, j < 10 → ∀ k, k < 10 →
    Nat.digitChar j = Nat.digitChar k → j = k := by
  intro j hj k hk
  interval_cases j <;> interval_cases k <;> decide

/-- One-step unfolding of the decimal digit list. -/
theorem decDigits_unfold (n : Nat) :
    decDigits n = if n < 10 then [Nat.digitChar n]
      else decDigits (n / 10) ++ [Nat.digitChar (n % 10)] := by
  rw [decDigits]
  split
  · rfl
  · rfl

/-- Decimal printing is injective. -/
theorem decDigits_inj : ∀ m n : Nat, decDigits m = decDigits n → m = n := by
  intro m
  induction m using Nat.strong_induction_on with
  | _ m ih =>
    intro n h
    rw [decDigits_unfold m, decDigits_unfold n] at h
    by_cases hm : m < 10 <;> by_cases hn : n < 10
    · rw [if_pos hm, if_pos hn] at h
      simp only [List.cons.injEq, and_true] at h
      exact digitChar_inj_lt m hm n hn h
    · exfalso
      rw [if_pos hm, if_neg hn] at h
      have hl := congrArg List.length h
      simp only [List.length_singleton, List.length_append] at hl
      have : (decDigits (n / 10)).length = 0 := by omega
      exact decDigits_ne_nil (n / 10) (List.length_eq_zero.mp this)
    · exfalso
      rw [if_neg hm, if_pos hn] at h
      have hl := congrArg List.length h
      simp only [List.length_singleton, List.length_append] at hl
      have : (decDigits (m / 10)).length = 0 := by omega
      exact decDigits_ne_nil (m / 10) (List.length_eq_zero.mp this)
    · rw [if_neg hm, if_neg hn] at h
      obtain ⟨h1, h2⟩ := List.append_inj' h (by simp)
      have e1 : m / 10 = n / 10 :=
        ih (m / 10) (Nat.div_lt_self (by omega) (by omega)) (n / 10) h1
      simp only [List.cons.injEq, and_true] at h2
      have e2 : m % 10 = n % 10 :=
        digitChar_inj_lt (m % 10) (Nat.mod_lt m (by omega)) (n % 10)
          (Nat.mod_lt n (by omega)) h2
      omega

/-- No decimal digit character is an underscore. -/
theorem decDigits_ne_underscore (n : Nat) : ∀ c ∈ decDigits n, c ≠ '_' := by
  intro c hc
  obtain ⟨k, hk, rfl⟩ := mem_decDigits n c hc
  interval_cases k <;> decide

/-- An underscore placed right after an underscore-free block determines the
block: the split at the first separator is unambiguous. -/
theorem underscore_split : ∀ (x y a b : List Char),
    (∀ c ∈ x, c ≠ '_') → (∀ c ∈ y, c ≠ '_') →
    x ++ '_' :: a = y ++ '_' :: b → x = y ∧ a = b := by
  intro x
  induction x with
  | nil =>
    intro y a b _ hy h
    cases y with
    | nil =>
      simp only [List.nil_append, List.cons.injEq, true_and] at h
      exact ⟨rfl, h⟩
    | cons d y2 =>
      rw [List.nil_append, List.cons_append] at h
      injection h with h1 h2
      exact absurd h1.symm (hy d (List.mem_cons_self d y2))
  | cons c x2 ih =>
    intro y a b hx hy h
    cases y with
    | nil =>
      rw [List.cons_append, List.nil_append] at h
      injection h with h1 h2
      exact absurd h1 (hx c (List.mem_cons_self c x2))
    | cons d y2 =>
      rw [List.cons_append, List.cons_append] at h
      injection h with h1 h2
      obtain ⟨hxy, hab⟩ := ih y2 a b
        (fun c1 hc1 => hx c1 (List.mem_cons_of_mem _ hc1))
        (fun c1 hc1 => hy c1 (List.mem_cons_of_mem _ hc1)) h2
      exact ⟨by rw [h1, hxy], hab⟩

/-- Synthesized contact keys of distinct timestamps are distinct, whatever
the request origins are: the timestamp block before the second underscore is
recoverable from the key. -/
theorem tempEmail_inj_timestamp (t1 t2 : Nat) (ip1 ip2 : String)
    (h : tempEmail t1 ip1 = tempEmail t2 ip2) : t1 = t2 := by
  have hd := congrArg String.data h
  simp only [tempEmail, String.data_append] at hd
  simp only [List.append_assoc, List.singleton_append, List.cons_append,
    List.nil_append, List.cons.injEq, true_and] at hd
  rw [repr_data_eq t1, repr_data_eq t2] at hd
  obtain ⟨hx, -⟩ := underscore_split (decDigits t1) (decDigits t2) _ _
    (decDigits_ne_underscore t1) (decDigits_ne_underscore t2) hd
  exact decDigits_inj t1 t2 hx

/-- Characterization of one anonymous submission whose synthesized email and
referral code are fresh: it succeeds, resolving to the freshly allocated
account id, and produces exactly the `postSubmitFresh` state. -/
theorem submit_fresh (s : DBState) (sid : Nat) (resp : List (String × AnswerVal))
    (ip ua : String) (t : Nat) (sv : Survey)
    (hsv : s.surveys.find? (fun v => decide (v.id = sid)) = some sv)
    (he : ∀ u ∈ s.users, u.email ≠ tempEmail t ip)
    (hc : ∀ u ∈ s.users, u.referral_code ≠ referralCode t)
    (hcm : ∀ c ∈ s.user_completed_surveys, c.user_id ≠ s.nextUserId) :
    submitSurvey s sid resp none ip ua t =
      (.success s.nextUserId
        (saveResponses s.nextUserId sid s.survey_questions resp).length,
       postSubmitFresh s sid resp ip ua t sv) := by
  have hfnone : s.users.find? (fun v => decide (v.email = tempEmail t ip))
      = none := by
    rw [List.find?_eq_none]
    intro u hu
    simp only [decide_eq_true_eq]
    exact he u hu
  have hanyrc : (s.users.any fun u =>
      decide (u.referral_code = referralCode t)) = false := by
    rw [List.any_eq_false]
    intro u hu
    simp only [decide_eq_true_eq]
    exact hc u hu
  have hup : upsertUser s (tempEmail t ip) ip ua (referralCode t) t =
      .ok (s.nextUserId,
        { s with
          users := s.users ++
            [{ id := s.nextUserId, email := tempEmail t ip, balance := 0,
               referral_code := referralCode t, referred_by := none,
               total_referrals := 0, ip_address := ip, user_agent := ua,
               updated_at := t }],
          nextUserId := s.nextUserId + 1 }) := by
    rw [upsertUser, hfnone]
    simp [hanyrc]
  rw [submitSurvey]
  simp only [Option.getD_none]
  rw [hup]
  dsimp only
  have hnotc : ¬ ((s.user_completed_surveys.any fun c =>
      decide (c.user_id = s.nextUserId ∧ c.survey_id = sid)) = true) := by
    intro hex
    rw [List.any_eq_true] at hex
    obtain ⟨c, hcmem, hc2⟩ := hex
    simp only [decide_eq_true_eq] at hc2
    exact hcm c hcmem hc2.1
  rw [if_neg hnotc]
  rw [hsv]
  rfl

/-- C10 (amended): two anonymous submissions at distinct timestamps whose
generated referral codes differ (timestamps differing in their last six
decimal digits) and whose synthesized identities collide with no existing
row are attributed to two distinct freshly created accounts; the
AlreadyCompleted guard rejects neither, and each account receives exactly
one completion record and one reward-credit entry. -/
theorem c10_amended (s : DBState) (sid : Nat)
    (resp1 resp2 : List (String × AnswerVal))
    (ip1 ip2 ua1 ua2 : String) (t1 t2 : Nat) (sv : Survey)
    (hsv : s.surveys.find? (fun v => decide (v.id = sid)) = some sv)
    (ht : t1 ≠ t2)
    (hrc : referralCode t1 ≠ referralCode t2)
    (he1 : ∀ u ∈ s.users, u.email ≠ tempEmail t1 ip1)
    (he2 : ∀ u ∈ s.users, u.email ≠ tempEmail t2 ip2)
    (hc1 : ∀ u ∈ s.users, u.referral_code ≠ referralCode t1)
    (hc2 : ∀ u ∈ s.users, u.referral_code ≠ referralCode t2)
    (hcm : ∀ c ∈ s.user_completed_surveys, c.user_id < s.nextUserId)
    (htx : ∀ tx ∈ s.transactions, tx.user_id < s.nextUserId) :
    ∃ n1 n2 s2,
      submitSurvey s sid resp1 none ip1 ua1 t1 =
        (.success s.nextUserId n1, postSubmitFresh s sid resp1 ip1 ua1 t1 sv) ∧
      submitSurvey (postSubmitFresh s sid resp1 ip1 ua1 t1 sv) sid resp2 none
          ip2 ua2 t2 = (.success (s.nextUserId + 1) n2, s2) ∧
      s.nextUserId ≠ s.nextUserId + 1 ∧
      countCompleted s2 s.nextUserId sid = 1 ∧
      countCompleted s2 (s.nextUserId + 1) sid = 1 ∧
      rewardTxCount s2 s.nextUserId sv.survey_key = 1 ∧
      rewardTxCount s2 (s.nextUserId + 1) sv.survey_key = 1 := by
  have h1 := submit_fresh s sid resp1 ip1 ua1 t1 sv hsv he1 hc1
    (fun c hcmem => by have := hcm c hcmem; omega)
  have hsv1 : (postSubmitFresh s sid resp1 ip1 ua1 t1 sv).surveys.find?
      (fun v => decide (v.id = sid)) = some sv := hsv
  have he2' : ∀ u ∈ (postSubmitFresh s sid resp1 ip1 ua1 t1 sv).users,
      u.email ≠ tempEmail t2 ip2 := by
    intro u hu
    simp only [postSubmitFresh] at hu
    rw [List.mem_map] at hu
    obtain ⟨u0, hu0, rfl⟩ := hu
    rcases List.mem_append.mp hu0 with hmem | hmem
    · have hne := he2 u0 hmem
      by_cases hid : u0.id = s.nextUserId <;> simp [hid, hne]
    · rw [List.mem_singleton] at hmem
      subst hmem
      simp only [if_pos rfl]
      exact fun heq => ht (tempEmail_inj_timestamp t1 t2 ip1 ip2 heq)
  have hc2' : ∀ u ∈ (postSubmitFresh s sid resp1 ip1 ua1 t1 sv).users,
      u.referral_code ≠ referralCode t2 := by
    intro u hu
    simp only [postSubmitFresh] at hu
    rw [List.mem_map] at hu
    obtain ⟨u0, hu0, rfl⟩ := hu
    rcases List.mem_append.mp hu0 with hmem | hmem
    · have hne := hc2 u0 hmem
      by_cases hid : u0.id = s.nextUserId <;> simp [hid, hne]
    · rw [List.mem_singleton] at hmem
      subst hmem
      simp only [if_pos rfl]
      exact hrc
  have hcm1 : ∀ c ∈ (postSubmitFresh s sid resp1 ip1 ua1 t1 sv).user_completed_surveys,
      c.user_id ≠ (postSubmitFresh s sid resp1 ip1 ua1 t1 sv).nextUserId := by
    intro c hcmem
    simp only [postSubmitFresh] at hcmem
    rcases List.mem_append.mp hcmem with hmem | hmem
    · have := hcm c hmem
      show c.user_id ≠ s.nextUserId + 1
      omega
    · rw [List.mem_singleton] at hmem
      subst hmem
      show s.nextUserId ≠ s.nextUserId + 1
      omega
  have h2 := submit_fresh (postSubmitFresh s sid resp1 ip1 ua1 t1 sv) sid resp2
    ip2 ua2 t2 sv hsv1 he2' hc2' hcm1
  refine ⟨_, _, _, h1, h2, by omega, ?_, ?_, ?_, ?_⟩
  · simp only [countCompleted, postSubmitFresh, List.filter_append,
      List.length_append]
    have hnilc : (s.user_completed_surveys.filter fun c =>
        decide (c.user_id = s.nextUserId ∧ c.survey_id = sid)) = [] :=
      List.filter_eq_nil_iff.mpr (fun c hcmem => by
        simp only [decide_eq_true_eq]
        rintro ⟨hcu, -⟩
        have := hcm c hcmem
        omega)
    rw [hnilc]
    simp
  · simp only [countCompleted, postSubmitFresh, List.filter_append,
      List.length_append]
    have hnilc : (s.user_completed_surveys.filter fun c =>
        decide (c.user_id = s.nextUserId + 1 ∧ c.survey_id = sid)) = [] :=
      List.filter_eq_nil_iff.mpr (fun c hcmem => by
        simp only [decide_eq_true_eq]
        rintro ⟨hcu, -⟩
        have := hcm c hcmem
        omega)
    rw [hnilc]
    simp
  · simp only [rewardTxCount, postSubmitFresh, List.filter_append,
      List.length_append]
    have hniltx : (s.transactions.filter fun tx =>
        decide (tx.user_id = s.nextUserId ∧
          tx.transaction_type = TransactionType.survey_reward ∧
          tx.reference_id = some sv.survey_key)) = [] :=
      List.filter_eq_nil_iff.mpr (fun tx htxmem => by
        simp only [decide_eq_true_eq]
        rintro ⟨hcu, -⟩
        have := htx tx htxmem
        omega)
    rw [hniltx]
    simp
  · simp only [rewardTxCount, postSubmitFresh, List.filter_append,
      List.length_append]
    have hniltx : (s.transactions.filter fun tx =>
        decide (tx.user_id = s.nextUserId + 1 ∧
          tx.transaction_type = TransactionType.survey_reward ∧
          tx.reference_id = some sv.survey_key)) = [] :=
      List.filter_eq_nil_iff.mpr (fun tx htxmem => by
        simp only [decide_eq_true_eq]
        rintro ⟨hcu, -⟩
        have := htx tx htxmem
        omega)
    rw [hniltx]
    simp

/-- C10 amended witness: the amended statement applied at a concrete state
with one survey, no users, timestamps 1 and 2 (whose referral codes REF1 and
REF2 differ). -/
theorem c10_amended_witness :
    sOneSurvey.surveys.find? (fun v => decide (v.id = 1)) =
      some { id := 1, survey_key := "k", reward_amount := 5,
             is_active := true } ∧
    (1 : Nat) ≠ 2 ∧
    referralCode 1 ≠ referralCode 2 ∧
    ∃ n1 n2 s2,
      submitSurvey sOneSurvey 1 [] none "a" "u" 1 =
        (.success sOneSurvey.nextUserId n1,
         postSubmitFresh sOneSurvey 1 [] "a" "u" 1
           { id := 1, survey_key := "k", reward_amount := 5,
             is_active := true }) ∧
      submitSurvey (postSubmitFresh sOneSurvey 1 [] "a" "u" 1
          { id := 1, survey_key := "k", reward_amount := 5,
            is_active := true }) 1 [] none "b" "u" 2 =
        (.success (sOneSurvey.nextUserId + 1) n2, s2) ∧
      sOneSurvey.nextUserId ≠ sOneSurvey.nextUserId + 1 ∧
      countCompleted s2 sOneSurvey.nextUserId 1 = 1 ∧
      countCompleted s2 (sOneSurvey.nextUserId + 1) 1 = 1 ∧
      rewardTxCount s2 sOneSurvey.nextUserId "k" = 1 ∧
      rewardTxCount s2 (sOneSurvey.nextUserId + 1) "k" = 1 :=
  ⟨by decide, by decide, by decide,
   c10_amended sOneSurvey 1 [] [] "a" "b" "u" "u" 1 2
     { id := 1, survey_key := "k", reward_amount := 5, is_active := true }
     (by decide) (by decide) (by decide) (by decide) (by decide) (by decide)
     (by decide) (by decide) (by decide)⟩

end SASAA
